import Mathlib

/-!
Shallow embedding of the punchcard time-tracking core: the event-log data
model, the continuity-guarded write path (`src/command/clock.rs`), the status
resolver (`src/command/status.rs`), the malformed-log check (`src/csv.rs`),
the weekly report pipeline (`src/command/report/weekly.rs`), the month-range
resolution (`src/types/month.rs` + `src/command/report/weekly.rs`), and the
bidirectional duration parser (`src/biduration.rs`).

Timestamps are modelled as `Int` nanoseconds since the Unix epoch (the
resolution the source serializes and feeds to polars).  A data file is
`Option (List RawRecord)`: `none` models a missing file, `some records` the
parsed records in file order, where each record either deserialized into an
`Entry` or is a malformed line.
-/

deriving instance DecidableEq for Except

namespace Punchcard

/-- Mirror of `EntryType` from `src/command/clock.rs`: serialized as `in` / `out`. -/
inductive EntryType where
  | clockIn
  | clockOut
deriving DecidableEq, Repr

/-- Mirror of `Entry` from `src/command/clock.rs`: one CSV record. -/
structure Entry where
  entry_type : EntryType
  timestamp : Int
deriving DecidableEq, Repr

/-- One line of the data file as the CSV deserializer sees it: either an
`Entry` that parsed, or a malformed line (kept as its raw text). -/
inductive RawRecord where
  | ok (e : Entry)
  | bad (line : String)
deriving DecidableEq, Repr

/-- The data file: `none` when the backing file does not exist. -/
abbrev DataFile := Option (List RawRecord)

/-- Error outcomes of the core operations (spec §7 taxonomy; the source
reports these as `eyre` report strings). -/
inductive CoreError where
  | malformedLog (lines : List String)
  | continuityViolation (latest : Int)
  | alreadyClocked (k : EntryType)
  | ioError
deriving DecidableEq, Repr

/-- The malformed lines of a record list, in file order
(`de.filter_map(Result::err)` in `check_data_file`). -/
def badLines (records : List RawRecord) : List String :=
  records.filterMap fun r =>
    match r with
    | .bad s => some s
    | .ok _ => none

/-- The successfully deserialized entries of a record list, in file order. -/
def entriesOf (records : List RawRecord) : List Entry :=
  records.filterMap fun r =>
    match r with
    | .ok e => some e
    | .bad _ => none

/-- Mirror of `check_data_file` from `src/csv.rs` (identical copy in
`src/command/clock.rs`): collects every deserialization error and fails
with the full list if there is at least one. -/
def check_data_file (records : List RawRecord) : Except CoreError Unit :=
  let errs := badLines records
  if errs.isEmpty then .ok () else .error (.malformedLog errs)

/-- The entry the stable ascending-by-timestamp sort puts last
(`get_last_entry`'s `sorted_by(..).last()` in `src/command/clock.rs`):
the maximum timestamp, and among equal timestamps the one latest in file
order (the sort is stable and ties compare `Equal`). -/
def lastEntry : List Entry → Option Entry
  | [] => none
  | e :: rest =>
    match lastEntry rest with
    | none => some e
    | some b => if e.timestamp ≤ b.timestamp then some b else some e

/-- Mirror of `get_last_entry` from `src/command/clock.rs`: `None` when the file does
not exist, otherwise validates the file and returns the chronologically
last entry. -/
def get_last_entry (file : DataFile) : Except CoreError (Option Entry) :=
  match file with
  | none => .ok none
  | some records =>
    match check_data_file records with
    | .error e => .error e
    | .ok () => .ok (lastEntry (entriesOf records))

/-- Mirror of `add_entry` from `src/command/clock.rs` (lines 67-178), with the
effective timestamp (`now + offset`) passed in: rejects a timestamp before
the chronologically last entry, then rejects a same-kind repeat, then
appends the record to the file (creating it when absent). -/
def add_entry (entry_type : EntryType) (timestamp : Int) (file : DataFile) :
    Except CoreError (List RawRecord) :=
  match get_last_entry file with
  | .error e => .error e
  | .ok last_entry =>
    match last_entry with
    | some e =>
      if e.timestamp > timestamp then
        .error (.continuityViolation e.timestamp)
      else if e.entry_type = entry_type then
        .error (.alreadyClocked entry_type)
      else
        .ok ((file.getD []) ++ [RawRecord.ok ⟨entry_type, timestamp⟩])
    | none => .ok ((file.getD []) ++ [RawRecord.ok ⟨entry_type, timestamp⟩])

/-- The kind of the chronologically last entry of the file, ignoring
read errors (helper for stating properties of `toggle_clock`). -/
def lastKind (file : DataFile) : Option EntryType :=
  match file with
  | none => none
  | some records => (lastEntry (entriesOf records)).map (·.entry_type)

/-- Mirror of `toggle_clock` from `src/command/clock.rs` (lines 180-190): adds a
clock-out when the last entry is a clock-in, otherwise adds a clock-in. -/
def toggle_clock (timestamp : Int) (file : DataFile) :
    Except CoreError (List RawRecord) :=
  match get_last_entry file with
  | .error e => .error e
  | .ok last_entry =>
    match last_entry.map (fun e => e.entry_type) with
    | some EntryType.clockIn => add_entry .clockOut timestamp file
    | _ => add_entry .clockIn timestamp file

/-- Mirror of `ClockStatusType` from `src/command/status.rs` (lines 137-142). -/
inductive ClockStatusType where
  | noDataFile
  | noEntries
  | entry (e : EntryType)
deriving DecidableEq, Repr

/-- Mirror of `ClockStatus` from `src/command/status.rs` (lines 154-160). -/
structure ClockStatus where
  status_type : ClockStatusType
  current_time : Int
  since : Option Int
  untilTs : Option Int
deriving DecidableEq, Repr

/-- The `while let Some(Ok(entry))` scan of `get_clock_status_inner`:
walks the file in order keeping the most recent entry at-or-before the
query time; stops at the first entry after the query time and reports it
as the next entry. -/
def statusScan (current_time : Int) : List Entry → Option Entry × Option Entry
  | [] => (none, none)
  | e :: rest =>
    if e.timestamp > current_time then (none, some e)
    else
      let (x, n) := statusScan current_time rest
      (some (x.getD e), n)

/-- Mirror of `get_clock_status_inner` from `src/command/status.rs` (lines 162-216):
`NoDataFile` when the file is absent; otherwise the reader construction
(`crate::csv::build_reader`) validates the file, then the linear scan
distinguishes `NoEntries` from the active entry with its `since`/`until`
boundaries. -/
def get_clock_status_inner (file : DataFile) (current_time : Int) :
    Except CoreError ClockStatus :=
  match file with
  | none => .ok ⟨.noDataFile, current_time, none, none⟩
  | some records =>
    match check_data_file records with
    | .error e => .error e
    | .ok () =>
      match statusScan current_time (entriesOf records) with
      | (none, _) => .ok ⟨.noEntries, current_time, none, none⟩
      | (some this_entry, next_entry) =>
        .ok ⟨.entry this_entry.entry_type, current_time,
             some this_entry.timestamp, next_entry.map (·.timestamp)⟩

/-- The active kind the status resolver reports at a query time (the
`activeKind` of the spec's `ClockStatus`). -/
def resolvedActiveKind (records : List RawRecord) (t : Int) : Option EntryType :=
  ((statusScan t (entriesOf records)).1).map (·.entry_type)

/-! ## Weekly report pipeline (`src/command/report/weekly.rs`) -/

/-- One row of the polars frame after the `diff` column is added:
the entry type, its timestamp, and the difference to the previous row's
timestamp (`null` on the first row, `NullBehavior::Ignore`). -/
structure Row where
  entry_type : EntryType
  ts : Int
  dur : Option Int
deriving DecidableEq, Repr

/-- Insert an entry into a timestamp-ascending list (helper for the
`sort(COL_TIMESTAMP, ascending)` stage; the source sort does not maintain
order among equal timestamps, so any ascending sort is a faithful model). -/
def insertByTs (e : Entry) : List Entry → List Entry
  | [] => [e]
  | x :: xs =>
    if e.timestamp ≤ x.timestamp then e :: x :: xs else x :: insertByTs e xs

/-- The ascending-by-timestamp sort of the report pipeline. -/
def sortByTs (es : List Entry) : List Entry :=
  es.foldr insertByTs []

/-- Mirror of `col(COL_TIMESTAMP).diff(1, NullBehavior::Ignore)`: each row's duration
is its timestamp minus the previous row's timestamp; the first row gets
`null`. -/
def withDiffs : List Entry → Option Int → List Row
  | [], _ => []
  | e :: rest, prev =>
    ⟨e.entry_type, e.timestamp, prev.map (fun p => e.timestamp - p)⟩ ::
      withDiffs rest (some e.timestamp)

/-- The rows surviving `filter(col(COL_ENTRY_TYPE).eq(lit("out")))` after
sorting and differencing: one row per completed shift, carrying the shift's
end timestamp and duration. -/
def outRows (entries : List Entry) : List Row :=
  (withDiffs (sortByTs entries) none).filter
    (fun r => r.entry_type == EntryType.clockOut)

/-- One week in nanoseconds (`Duration::parse("1w")`). -/
def weekNs : Int := 604800000000000

/-- A Monday in nanoseconds-since-epoch (1969-12-29T00:00:00); anchors the
`StartBy::Monday` weekly windows of `groupby_dynamic`. -/
def mondayEpoch : Int := -259200000000000

/-- The start of the Monday-aligned week window containing `t`
(`groupby_dynamic` with `every = period = 1w`, `StartBy::Monday`,
`ClosedWindow::Left`, `truncate: true`). -/
def weekWindowStart (t : Int) : Int :=
  mondayEpoch + weekNs * ((t - mondayEpoch).ediv weekNs)

/-- A row of the weekly report after aggregation
(`Week Of`, `Total Hours`, `Week End`, `Number of Shifts`,
`Avg. Shift Duration`). -/
structure Bucket where
  weekOf : Int
  total : Int
  weekEnd : Int
  shifts : Nat
  avg : Int
deriving DecidableEq, Repr

/-- The distinct keys of a list in order of first appearance (the group
keys of `groupby_dynamic` over sorted data). -/
def uniqueKeys : List Int → List Int
  | [] => []
  | k :: ks => k :: (uniqueKeys ks).filter (fun x => x != k)

/-- The aggregation stage: group the out-rows by their week window, sum the
durations (`sum`, skipping the null of a leading row), count the rows, and
derive `Week End = Week Of + 1w` and the average duration. -/
def weekBuckets (rows : List Row) : List Bucket :=
  (uniqueKeys (rows.map (fun r => weekWindowStart r.ts))).map fun k =>
    let group := rows.filter (fun r => weekWindowStart r.ts == k)
    let total := (group.filterMap (fun r => r.dur)).sum
    { weekOf := k
      total := total
      weekEnd := k + weekNs
      shifts := group.length
      avg := total / (group.length : Int) }

/-- The spill-over bucket filter of `generate_weekly_report`
(lines 150-171): week starts before the month and ends at/after its start,
or starts before the month's end and ends at/after it, or starts inside the
month. -/
def threeWayCode (month_start month_end : Int) (b : Bucket) : Bool :=
  (decide (b.weekOf < month_start) && decide (month_start ≤ b.weekEnd)) ||
  (decide (b.weekOf < month_end) && decide (month_end ≤ b.weekEnd)) ||
  (decide (month_start ≤ b.weekOf) && decide (b.weekOf < month_end))

/-- The three-way boundary test as the spec words it: the bucket spills in
across the month start, spills out across the month end, or is fully
contained in `[monthStart, monthEnd)`. -/
def threeWaySpec (month_start month_end : Int) (b : Bucket) : Prop :=
  (b.weekOf < month_start ∧ month_start ≤ b.weekEnd) ∨
  (b.weekOf < month_end ∧ month_end ≤ b.weekEnd) ∨
  (month_start ≤ b.weekOf ∧ b.weekEnd ≤ month_end)

/-- The month filter applied to shift end timestamps when spill-over is
disabled (lines 110-118): `ts >= month_start && ts < month_end`. -/
def monthFilteredRows (entries : List Entry) (month_start month_end : Int) :
    List Row :=
  (outRows entries).filter
    (fun r => decide (month_start ≤ r.ts) && decide (r.ts < month_end))

/-- Mirror of `generate_weekly_report` from `src/command/report/weekly.rs` with the
month range already resolved (`range = None` models month `all`): without
spill-over the shift rows are filtered to the month before bucketing; with
spill-over the resulting week buckets are filtered by the three-way
boundary test instead. -/
def weeklyReportCore (entries : List Entry) (range : Option (Int × Int))
    (spill_over : Bool) : List Bucket :=
  let rows := outRows entries
  let rows :=
    match range with
    | some (month_start, month_end) =>
      if spill_over then rows
      else rows.filter
        (fun r => decide (month_start ≤ r.ts) && decide (r.ts < month_end))
    | none => rows
  let buckets := weekBuckets rows
  match range with
  | some (month_start, month_end) =>
    if spill_over then buckets.filter (threeWayCode month_start month_end)
    else buckets
  | none => buckets

/-- Modelled from the spec: `new_reader`, the report-path log reader, is
called by `generate_weekly_report` / `generate_daily_report` but its body is
absent from the sources; per spec §4.2 every read surfaces `MalformedLog`
listing the unparsable records and refuses to proceed (fail closed), so it
is the report-path counterpart of `csv::build_reader`. -/
def new_reader (file : DataFile) : Except CoreError (List Entry) :=
  match file with
  | none => .error .ioError
  | some records =>
    match check_data_file records with
    | .error e => .error e
    | .ok () => .ok (entriesOf records)

/-- The weekly report with the fail-closed read in front (month range
pre-resolved). -/
def generate_weekly_report (file : DataFile) (range : Option (Int × Int))
    (spill_over : Bool) : Except CoreError (List Bucket) :=
  match new_reader file with
  | .error e => .error e
  | .ok entries => .ok (weeklyReportCore entries range spill_over)

/-! ## Month-range resolution (`src/types/month.rs`, `weekly.rs` lines 55-72) -/

/-- A local wall-clock datetime as chrono's field accessors expose it. -/
structure SimpleDate where
  year : Int
  month : Nat
  day : Nat
  hour : Nat
  minute : Nat
  second : Nat
  nanosecond : Nat
deriving DecidableEq, Repr

/-- Gregorian leap-year rule. -/
def isLeapYear (y : Int) : Bool :=
  y % 4 = 0 && (y % 100 ≠ 0 || y % 400 = 0)

/-- Days in a Gregorian month. -/
def daysInMonth (y : Int) (m : Nat) : Nat :=
  if m = 2 then (if isLeapYear y then 29 else 28)
  else if m = 4 ∨ m = 6 ∨ m = 9 ∨ m = 11 then 30
  else 31

/-- chrono's `DateTime::with_month`: `None` when the month number is out of
1..=12 or the current day does not exist in the target month. -/
def with_month (d : SimpleDate) (m : Nat) : Option SimpleDate :=
  if 1 ≤ m ∧ m ≤ 12 then
    if d.day ≤ daysInMonth d.year m then some { d with month := m } else none
  else none

/-- The month selector (`src/types/month.rs`). -/
inductive MonthArg where
  | current
  | previous
  | next
  | all
  | january | february | march | april | may | june
  | july | august | september | october | november | december
deriving DecidableEq, Repr

/-- The month number of an explicit selector. -/
def MonthArg.explicitNum : MonthArg → Option Nat
  | .january => some 1
  | .february => some 2
  | .march => some 3
  | .april => some 4
  | .may => some 5
  | .june => some 6
  | .july => some 7
  | .august => some 8
  | .september => some 9
  | .october => some 10
  | .november => some 11
  | .december => some 12
  | _ => none

/-- Mirror of `Month::as_date` (`src/types/month.rs` lines 44-96) with `Local::now()`
passed in: resolves the selector to the first instant of the target month
(`None` for `All`).  `Previous` is computed in the source as
`now.with_day(1) - 1 day` (the last day of the previous month) and `Next`
as `now.with_day(1) + 32 days` (always lands in the following month); both
are modelled by their resulting (month, year). -/
def month_as_date (now : SimpleDate) (m : MonthArg) : Option SimpleDate :=
  let pick : Option (Nat × Int) :=
    match m with
    | .all => none
    | .current => some (now.month, now.year)
    | .previous =>
      some (if now.month = 1 then (12, now.year - 1)
            else (now.month - 1, now.year))
    | .next =>
      some (if now.month = 12 then (1, now.year + 1)
            else (now.month + 1, now.year))
    | other =>
      match other.explicitNum with
      | some n => some (n, now.year)
      | none => none
  pick.map fun (mn, yr) =>
    { year := yr, month := mn, day := 1,
      hour := 0, minute := 0, second := 0, nanosecond := 0 }

/-- The month range computed at the top of `generate_weekly_report`
(`weekly.rs` lines 55-72).  The outer `Option` models panic freedom: the
source calls `.unwrap()` on `with_month(month + 1)`, so a `None` there — and
only there — is a panic, modelled as the outer `none`.  The inner value is
the `(month_start, month_end)` pair, `none` for month `all`.  `month_end`
is `first of next month - 1 day` with the time forced to
`23:59:59.999999999` (the last nanosecond of the month). -/
def weeklyMonthRange (now : SimpleDate) (m : MonthArg) :
    Option (Option (SimpleDate × SimpleDate)) :=
  match month_as_date now m with
  | none => some none
  | some month_start =>
    match with_month month_start (month_start.month + 1) with
    | none => none
    | some date1 =>
      let month_end : SimpleDate :=
        { year := date1.year, month := month_start.month,
          day := daysInMonth date1.year month_start.month,
          hour := 23, minute := 59, second := 59, nanosecond := 999999999 }
      some (some (month_start, month_end))

/-! ## BiDuration parsing (`src/biduration.rs`)

The duration grammar itself comes from the external `humantime` crate
(`parse_duration`); it is embedded below over the whitespace-split token
list that `BiDuration::from_str` produces with `split_whitespace`. -/

/-- Nanoseconds of one `humantime` unit word. -/
def unitNanos (u : String) : Option Nat :=
  match u with
  | "nsec" | "ns" => some 1
  | "usec" | "us" => some 1000
  | "msec" | "ms" => some 1000000
  | "seconds" | "second" | "secs" | "sec" | "s" => some 1000000000
  | "minutes" | "minute" | "mins" | "min" | "m" => some 60000000000
  | "hours" | "hour" | "hr" | "h" => some 3600000000000
  | "days" | "day" | "d" => some 86400000000000
  | "weeks" | "week" | "w" => some 604800000000000
  | "months" | "month" | "M" => some 2630016000000000000
  | "years" | "year" | "y" => some 31557600000000000000
  | _ => none

/-- Character scan of one token: alternating digit runs and unit-word runs,
accumulating `(value, unit)` pairs (`humantime` accepts `5h` as well as
`1h30m` in one token).  `n` is the number being read, `u` the reversed unit
characters, `inUnit` whether the scan is inside a unit word. -/
def scanTok : List Char → Nat → List Char → Bool → List (Nat × String) →
    Option (List (Nat × String))
  | [], n, u, inUnit, acc =>
    if inUnit && !u.isEmpty then some (acc ++ [(n, String.mk u.reverse)])
    else none
  | c :: cs, n, u, inUnit, acc =>
    if c.isDigit then
      if inUnit then
        scanTok cs (c.toNat - 48) [] false (acc ++ [(n, String.mk u.reverse)])
      else
        scanTok cs (n * 10 + (c.toNat - 48)) [] false acc
    else if c.isAlpha then
      scanTok cs n (c :: u) true acc
    else none

/-- Parse one whitespace-free token into its `(value, unit)` pairs; the
token must start with a digit. -/
def parseTokenPairs (s : String) : Option (List (Nat × String)) :=
  match s.data with
  | [] => none
  | c :: _ => if c.isDigit then scanTok s.data 0 [] false [] else none

/-- A well-formed positive-duration token: it scans into pairs and every
unit word is known. -/
def isDurationToken (s : String) : Bool :=
  match parseTokenPairs s with
  | none => false
  | some pairs => pairs.all (fun p => (unitNanos p.2).isSome)

/-- Nanosecond value of one token. -/
def tokenNanos (s : String) : Option Nat :=
  match parseTokenPairs s with
  | none => none
  | some pairs =>
    pairs.foldl
      (fun acc p =>
        match acc, unitNanos p.2 with
        | some a, some un => some (a + p.1 * un)
        | _, _ => none)
      (some 0)

/-- Mirror of `humantime::parse_duration` over the joined token slice: the sum of the
token values; the empty string is an error. -/
def parse_duration (toks : List String) : Option Nat :=
  match toks with
  | [] => none
  | _ =>
    toks.foldl
      (fun acc t =>
        match acc, tokenNanos t with
        | some a, some v => some (a + v)
        | _, _ => none)
      (some 0)

/-- Mirror of `BiDurationParseError` (`src/biduration.rs` lines 93-104). -/
inductive BiDurationParseError where
  | invalidDirection
  | bothDirections
  | invalidDuration
  | outOfRange
deriving DecidableEq, Repr

/-- Bound at which `chrono::Duration::from_std` fails:
it rejects values beyond `i64::MAX` milliseconds;
in nanoseconds: -/
def chronoMaxNanos : Nat := (2 ^ 63 - 1) * 1000000

/-- Mirror of `BiDuration::from_str` (`src/biduration.rs` lines 106-138) over the
`split_whitespace` token list: a leading `"in"` forces forward, a trailing
`"ago"` forces backward, both at once is `BothDirections`, the remaining
slice is parsed as a positive duration and negated when backward. -/
def biduration_from_str (parts : List String) : Except BiDurationParseError Int :=
  match parts.head? with
  | none => .error .invalidDirection
  | some first =>
    match parts.getLast? with
    | none => .error .invalidDirection
    | some last =>
      let is_explicit_forward := first == "in"
      let is_backward := last == "ago"
      match is_explicit_forward, is_backward with
      | true, true => .error .bothDirections
      | true, false =>
        match parse_duration (parts.drop 1) with
        | none => .error .invalidDuration
        | some n =>
          if n > chronoMaxNanos then .error .outOfRange else .ok (n : Int)
      | false, true =>
        match parse_duration parts.dropLast with
        | none => .error .invalidDuration
        | some n =>
          if n > chronoMaxNanos then .error .outOfRange else .ok (-(n : Int))
      | false, false =>
        match parse_duration parts with
        | none => .error .invalidDuration
        | some n =>
          if n > chronoMaxNanos then .error .outOfRange else .ok (n : Int)

/-! ## Hour-rounding formatter -/

/-- The value `i64::MAX`. -/
def i64MaxNat : Nat := 2 ^ 63 - 1

/-- Modelled from the spec: `BiDuration::to_friendly_hours_string` is called
by `map_duration_to_str` (`src/command/report.rs`) and pinned down by
`test_format_biduration_hours` (`src/tests.rs`), but its body is absent from
the sources.  Per spec §4.1 it drops the sign, clamps the magnitude to the
maximum representable one instead of overflowing, and rounds to whole
hours/minutes — the magnitude in hours and minutes, minutes rounded to the
nearest (half up), matching every vector of the test. -/
def friendlyHoursMinutes (ns : Int) : Nat × Nat :=
  let mag : Nat := min ns.natAbs i64MaxNat
  let totalMinutes : Nat := (mag / 1000000000 + 30) / 60
  (totalMinutes / 60, totalMinutes % 60)

/-- Pluralizing renderer of the hour-rounding formatter. -/
def renderHoursMinutes : Nat × Nat → String
  | (0, m) => toString m ++ " minute" ++ (if m = 1 then "" else "s")
  | (h, 0) => toString h ++ " hour" ++ (if h = 1 then "" else "s")
  | (h, m) =>
    toString h ++ " hour" ++ (if h = 1 then "" else "s") ++
      " " ++ toString m ++ " minute" ++ (if m = 1 then "" else "s")

/-- Modelled from the spec: the hour-rounding formatter (see
`friendlyHoursMinutes`). -/
def to_friendly_hours_string (ns : Int) : String :=
  renderHoursMinutes (friendlyHoursMinutes ns)

/-! ## Theorems -/

/-- A chronologically last entry is an entry of the log. -/
theorem lastEntry_mem {es : List Entry} {e : Entry}
    (h : lastEntry es = some e) : e ∈ es := by
  induction es with
  | nil => simp [lastEntry] at h
  | cons x xs ih =>
    unfold lastEntry at h
    cases hx : lastEntry xs with
    | none =>
      rw [hx] at h
      simp at h
      simp [h]
    | some b =>
      rw [hx] at h
      by_cases hle : x.timestamp ≤ b.timestamp
      · simp [hle] at h
        exact List.mem_cons_of_mem x (ih (by rw [hx, h]))
      · simp [hle] at h
        simp [h]

/-- C1: for a log `[in@T0, out@T1]` with `T0 < T1`, the resolved status at
any `t` with `T0 ≤ t < T1` is active `ClockIn` with `since = T0`,
`until = T1`; at any `t ≥ T1` it is active `ClockOut` with `since = T1`
and no `until`. -/
theorem status_of_in_out_log (T0 T1 t : Int) (h01 : T0 < T1) :
    (T0 ≤ t → t < T1 →
      get_clock_status_inner
          (some [.ok ⟨.clockIn, T0⟩, .ok ⟨.clockOut, T1⟩]) t
        = .ok ⟨.entry .clockIn, t, some T0, some T1⟩)
    ∧ (T1 ≤ t →
      get_clock_status_inner
          (some [.ok ⟨.clockIn, T0⟩, .ok ⟨.clockOut, T1⟩]) t
        = .ok ⟨.entry .clockOut, t, some T1, none⟩) := by
  constructor
  · intro h0 h1
    have hn0 : ¬ (T0 > t) := not_lt.mpr h0
    simp [get_clock_status_inner, check_data_file, badLines, entriesOf,
      statusScan, hn0, h1]
  · intro h1
    have hn0 : ¬ (T0 > t) := not_lt.mpr (le_trans (le_of_lt h01) h1)
    have hn1 : ¬ (T1 > t) := not_lt.mpr h1
    simp [get_clock_status_inner, check_data_file, badLines, entriesOf,
      statusScan, hn0, hn1]

theorem status_of_in_out_log_witness :
    get_clock_status_inner
        (some [.ok ⟨.clockIn, 0⟩, .ok ⟨.clockOut, 10⟩]) 5
      = .ok ⟨.entry .clockIn, 5, some 0, some 10⟩
    ∧ get_clock_status_inner
        (some [.ok ⟨.clockIn, 0⟩, .ok ⟨.clockOut, 10⟩]) 12
      = .ok ⟨.entry .clockOut, 12, some 10, none⟩ :=
  ⟨(status_of_in_out_log 0 10 5 (by decide)).1 (by decide) (by decide),
   (status_of_in_out_log 0 10 12 (by decide)).2 (by decide)⟩

/-- C2: appending an entry whose effective timestamp is before the
chronologically last entry of a well-formed log fails with the continuity
violation carrying that entry's timestamp, and no appended log is
produced. -/
theorem continuity_violation_on_backdate (records : List RawRecord)
    (last : Entry) (entry_type : EntryType) (timestamp : Int)
    (hclean : badLines records = [])
    (hlast : lastEntry (entriesOf records) = some last)
    (hbefore : timestamp < last.timestamp) :
    add_entry entry_type timestamp (some records)
      = .error (.continuityViolation last.timestamp) := by
  simp [add_entry, get_last_entry, check_data_file, hclean, hlast, hbefore]

theorem continuity_violation_on_backdate_witness :
    add_entry .clockIn 5 (some [.ok ⟨.clockIn, 10⟩])
      = .error (.continuityViolation 10) :=
  continuity_violation_on_backdate [.ok ⟨.clockIn, 10⟩] ⟨.clockIn, 10⟩
    .clockIn 5 (by decide) (by decide) (by decide)

/-- C9: an existing but empty log resolves to `NoEntries`, an absent file
to `NoDataFile`; the two are distinct constructors and both are distinct
from every `Entry` state — in particular from the off-shift state, where a
log ending in a clock-out resolves to `Entry(ClockOut)`. -/
theorem empty_log_status_distinct (t : Int) :
    get_clock_status_inner none t = .ok ⟨.noDataFile, t, none, none⟩
    ∧ get_clock_status_inner (some []) t = .ok ⟨.noEntries, t, none, none⟩
    ∧ ClockStatusType.noEntries ≠ ClockStatusType.noDataFile
    ∧ (∀ k, ClockStatusType.noEntries ≠ ClockStatusType.entry k
          ∧ ClockStatusType.noDataFile ≠ ClockStatusType.entry k)
    ∧ (∀ T : Int, T ≤ t →
        get_clock_status_inner (some [.ok ⟨.clockOut, T⟩]) t
          = .ok ⟨.entry .clockOut, t, some T, none⟩) := by
  refine ⟨rfl, rfl, by simp, fun k => ⟨by simp, by simp⟩, fun T hT => ?_⟩
  have hn : ¬ (T > t) := not_lt.mpr hT
  simp [get_clock_status_inner, check_data_file, badLines, entriesOf,
    statusScan, hn]

theorem empty_log_status_distinct_witness :
    get_clock_status_inner (some [.ok ⟨.clockOut, 3⟩]) 7
      = .ok ⟨.entry .clockOut, 7, some 3, none⟩ :=
  (empty_log_status_distinct 7).2.2.2.2 3 (by decide)

/-- C3 (counterexample): the claim as stated fails.  On the log
`[in@10, out@20]` a request to clock in at effective time 15 has resolved
active kind `ClockIn` (equal to the requested kind), yet `add_entry` fails
with the continuity violation — not with `AlreadyInState` — because the
continuity check runs first. -/
theorem already_in_state_counterexample :
    resolvedActiveKind [.ok ⟨.clockIn, 10⟩, .ok ⟨.clockOut, 20⟩] 15
      = some .clockIn
    ∧ add_entry .clockIn 15 (some [.ok ⟨.clockIn, 10⟩, .ok ⟨.clockOut, 20⟩])
      = .error (.continuityViolation 20)
    ∧ CoreError.continuityViolation 20
      ≠ CoreError.alreadyClocked .clockIn := by
  refine ⟨by decide, by decide, by simp⟩

/-- C3 (amended): if the kind of the chronologically last entry equals the
requested kind and the proposed timestamp is not before that entry (so the
continuity check passes), the append fails with `AlreadyInState` of that
kind and no appended log is produced. -/
theorem already_in_state_after_continuity (records : List RawRecord)
    (last : Entry) (entry_type : EntryType) (timestamp : Int)
    (hclean : badLines records = [])
    (hlast : lastEntry (entriesOf records) = some last)
    (hcont : last.timestamp ≤ timestamp)
    (hkind : last.entry_type = entry_type) :
    add_entry entry_type timestamp (some records)
      = .error (.alreadyClocked entry_type) := by
  have hn : ¬ (last.timestamp > timestamp) := not_lt.mpr hcont
  simp [add_entry, get_last_entry, check_data_file, hclean, hlast, hn, hkind]

theorem already_in_state_after_continuity_witness :
    add_entry .clockIn 15 (some [.ok ⟨.clockIn, 10⟩])
      = .error (.alreadyClocked .clockIn) :=
  already_in_state_after_continuity [.ok ⟨.clockIn, 10⟩] ⟨.clockIn, 10⟩
    .clockIn 15 (by decide) (by decide) (by decide) (by decide)

/-- C4: a log with at least one unparsable record makes the read check fail
with `MalformedLog` carrying exactly the unparsable records (every one of
them and nothing else), and the write, status, and weekly-report operations
all refuse to proceed with that same error. -/
theorem malformed_log_fails_closed (records : List RawRecord)
    (entry_type : EntryType) (timestamp t : Int)
    (range : Option (Int × Int)) (spill_over : Bool)
    (hbad : badLines records ≠ []) :
    check_data_file records = .error (.malformedLog (badLines records))
    ∧ (∀ s, s ∈ badLines records ↔ RawRecord.bad s ∈ records)
    ∧ add_entry entry_type timestamp (some records)
        = .error (.malformedLog (badLines records))
    ∧ get_clock_status_inner (some records) t
        = .error (.malformedLog (badLines records))
    ∧ generate_weekly_report (some records) range spill_over
        = .error (.malformedLog (badLines records)) := by
  have hchk : check_data_file records
      = .error (.malformedLog (badLines records)) := by
    simp [check_data_file, List.isEmpty_iff, hbad]
  refine ⟨hchk, ?_, ?_, ?_, ?_⟩
  · intro s
    constructor
    · intro hs
      rcases List.mem_filterMap.mp hs with ⟨r, hr, hf⟩
      cases r with
      | ok e => simp at hf
      | bad s' =>
        simp at hf
        rw [← hf]
        exact hr
    · intro hr
      exact List.mem_filterMap.mpr ⟨.bad s, hr, rfl⟩
  · simp [add_entry, get_last_entry, hchk]
  · simp [get_clock_status_inner, hchk]
  · simp [generate_weekly_report, new_reader, hchk]

theorem malformed_log_fails_closed_witness :
    check_data_file [.bad "x", .ok ⟨.clockIn, 0⟩]
      = .error (.malformedLog ["x"])
    ∧ ("x" ∈ badLines [.bad "x", .ok ⟨.clockIn, 0⟩]
        ↔ RawRecord.bad "x" ∈ [RawRecord.bad "x", .ok ⟨.clockIn, 0⟩])
    ∧ add_entry .clockIn 5 (some [.bad "x", .ok ⟨.clockIn, 0⟩])
      = .error (.malformedLog ["x"])
    ∧ get_clock_status_inner (some [.bad "x", .ok ⟨.clockIn, 0⟩]) 5
      = .error (.malformedLog ["x"])
    ∧ generate_weekly_report (some [.bad "x", .ok ⟨.clockIn, 0⟩]) none false
      = .error (.malformedLog ["x"]) := by
  have h := malformed_log_fails_closed [.bad "x", .ok ⟨.clockIn, 0⟩]
    .clockIn 5 5 none false (by decide)
  exact ⟨h.1, h.2.1 "x", h.2.2.1, h.2.2.2.1, h.2.2.2.2⟩

/-- The entry kind `toggle_clock` requests: the opposite of the
chronologically last entry's kind, defaulting to clock-in. -/
def toggleKindOf (file : DataFile) : EntryType :=
  match lastKind file with
  | some .clockIn => .clockOut
  | _ => .clockIn

/-- C10: whenever the proposed time is not before any logged entry,
`toggle_clock` appends exactly one entry, and that entry is a clock-out if
and only if the chronologically last entry is a clock-in; in every other
case — no file, no entries, or last entry a clock-out — it appends a
clock-in. -/
theorem toggle_appends_opposite (file : DataFile) (timestamp : Int)
    (hclean : badLines (file.getD []) = [])
    (hle : ∀ e ∈ entriesOf (file.getD []), e.timestamp ≤ timestamp) :
    toggle_clock timestamp file
      = .ok ((file.getD []) ++ [RawRecord.ok ⟨toggleKindOf file, timestamp⟩])
    ∧ (toggleKindOf file = .clockOut ↔ lastKind file = some .clockIn) := by
  cases file with
  | none =>
    constructor
    · rfl
    · simp [toggleKindOf, lastKind]
  | some records =>
    simp only [Option.getD] at hclean hle
    cases hl : lastEntry (entriesOf records) with
    | none =>
      constructor
      · simp [toggle_clock, add_entry, get_last_entry, check_data_file,
          hclean, hl, toggleKindOf, lastKind]
      · simp [toggleKindOf, lastKind, hl]
    | some last =>
      have hmem : last ∈ entriesOf records := lastEntry_mem hl
      have hts : last.timestamp ≤ timestamp := hle last hmem
      have hn : ¬ (last.timestamp > timestamp) := not_lt.mpr hts
      cases hk : last.entry_type with
      | clockIn =>
        constructor
        · simp [toggle_clock, add_entry, get_last_entry, check_data_file,
            hclean, hl, hk, hn, toggleKindOf, lastKind]
        · simp [toggleKindOf, lastKind, hl, hk]
      | clockOut =>
        constructor
        · simp [toggle_clock, add_entry, get_last_entry, check_data_file,
            hclean, hl, hk, hn, toggleKindOf, lastKind]
        · simp [toggleKindOf, lastKind, hl, hk]

theorem toggle_appends_opposite_witness :
    (toggle_clock 25 (some [.ok ⟨.clockIn, 10⟩])
        = .ok [.ok ⟨.clockIn, 10⟩, .ok ⟨.clockOut, 25⟩]
      ∧ (toggleKindOf (some [.ok ⟨.clockIn, 10⟩]) = .clockOut
          ↔ lastKind (some [.ok ⟨.clockIn, 10⟩]) = some .clockIn))
    ∧ (toggle_clock 25 (none : DataFile) = .ok [.ok ⟨.clockIn, 25⟩]
      ∧ (toggleKindOf (none : DataFile) = .clockOut
          ↔ lastKind (none : DataFile) = some .clockIn)) :=
  ⟨toggle_appends_opposite (some [.ok ⟨.clockIn, 10⟩]) 25 (by decide)
      (by decide),
   toggle_appends_opposite (none : DataFile) 25 (by decide) (by decide)⟩

/-- C7: the hour-rounding formatter is sign-blind (the magnitude reported
for `d` and `-d` is the same, so it is always non-negative), is total on
the extremal `i64` nanosecond durations, and reproduces every vector of
`test_format_biduration_hours`. -/
theorem friendly_hours_formatter (d : Int) :
    to_friendly_hours_string d = to_friendly_hours_string (-d)
    ∧ to_friendly_hours_string 9223372036854775807
        = "2562047 hours 47 minutes"
    ∧ to_friendly_hours_string (-9223372036854775808)
        = "2562047 hours 47 minutes"
    ∧ to_friendly_hours_string (100 * 60000000000) = "1 hour 40 minutes"
    ∧ to_friendly_hours_string (-120 * 60000000000) = "2 hours"
    ∧ to_friendly_hours_string (29 * 1000000000) = "0 minutes"
    ∧ to_friendly_hours_string (30 * 1000000000) = "1 minute"
    ∧ to_friendly_hours_string 0 = "0 minutes" := by
  refine ⟨?_, rfl, rfl, rfl, rfl, rfl, rfl, rfl⟩
  simp [to_friendly_hours_string, friendlyHoursMinutes, Int.natAbs_neg]

/-- C8: the month-range resolution of the weekly report panics for
December — `month_start.with_month(13)` is `None` and the source unwraps
it — while every other explicit month resolves without panic (January shown
as the contrast); this contradicts the spec's no-panic requirement. -/
theorem december_month_range_panics (now : SimpleDate) :
    weeklyMonthRange now .december = none
    ∧ weeklyMonthRange now .january
      = some (some
          (⟨now.year, 1, 1, 0, 0, 0, 0⟩,
           ⟨now.year, 1, 31, 23, 59, 59, 999999999⟩)) := by
  constructor
  · simp [weeklyMonthRange, month_as_date, MonthArg.explicitNum, with_month]
  · cases hleap : isLeapYear now.year <;>
      simp [weeklyMonthRange, month_as_date, MonthArg.explicitNum, with_month,
        daysInMonth, hleap]

/-- Every aggregated week bucket ends exactly one week after it starts
(`Week End = Week Of + 1w`). -/
theorem weekBuckets_weekEnd {rows : List Row} {b : Bucket}
    (h : b ∈ weekBuckets rows) : b.weekEnd = b.weekOf + weekNs := by
  rcases List.mem_map.mp h with ⟨k, _, hk⟩
  rw [← hk]

/-- The unfiltered weekly report is the bucketing of all out-rows. -/
theorem weeklyReportCore_none (entries : List Entry) (spill_over : Bool) :
    weeklyReportCore entries none spill_over
      = weekBuckets (outRows entries) := rfl

/-- C5: with spill-over enabled the weekly report for a month range is
exactly the unfiltered week-bucket list filtered by the source's three-way
boundary test; that test agrees with the spec's reading (spills in across
the month start, spills out across the month end, or fully contained in
`[monthStart, monthEnd)`) on every produced bucket; and with spill-over
disabled the report buckets only shifts whose end timestamp lies in
`[monthStart, monthEnd)`, so a shift ending outside the range is
excluded. -/
theorem weekly_spill_over_filter (entries : List Entry)
    (month_start month_end : Int) (b : Bucket) (r : Row)
    (hb : b ∈ weeklyReportCore entries none true)
    (hr : r ∈ monthFilteredRows entries month_start month_end) :
    weeklyReportCore entries (some (month_start, month_end)) true
      = (weeklyReportCore entries none true).filter
          (threeWayCode month_start month_end)
    ∧ (threeWayCode month_start month_end b = true
        ↔ threeWaySpec month_start month_end b)
    ∧ weeklyReportCore entries (some (month_start, month_end)) false
        = weekBuckets (monthFilteredRows entries month_start month_end)
    ∧ (month_start ≤ r.ts ∧ r.ts < month_end) := by
  have hE : b.weekEnd = b.weekOf + weekNs :=
    weekBuckets_weekEnd (by rw [← weeklyReportCore_none entries true]; exact hb)
  refine ⟨rfl, ?_, rfl, ?_⟩
  · simp only [threeWayCode, threeWaySpec, Bool.or_eq_true, Bool.and_eq_true,
      decide_eq_true_eq, hE, weekNs]
    omega
  · have := List.mem_filter.mp hr
    simpa using this.2

theorem weekly_spill_over_filter_witness :
    (weeklyReportCore [⟨.clockIn, 0⟩, ⟨.clockOut, 100⟩] (some (0, 200)) true
      = (weeklyReportCore [⟨.clockIn, 0⟩, ⟨.clockOut, 100⟩] none true).filter
          (threeWayCode 0 200))
    ∧ (threeWayCode 0 200
          ⟨-259200000000000, 100, 345600000000000, 1, 100⟩ = true
        ↔ threeWaySpec 0 200
          ⟨-259200000000000, 100, 345600000000000, 1, 100⟩)
    ∧ weeklyReportCore [⟨.clockIn, 0⟩, ⟨.clockOut, 100⟩] (some (0, 200)) false
        = weekBuckets (monthFilteredRows [⟨.clockIn, 0⟩, ⟨.clockOut, 100⟩] 0 200)
    ∧ ((0 : Int) ≤ (Row.mk .clockOut 100 (some 100)).ts
        ∧ (Row.mk .clockOut 100 (some 100)).ts < 200) :=
  weekly_spill_over_filter [⟨.clockIn, 0⟩, ⟨.clockOut, 100⟩] 0 200
    ⟨-259200000000000, 100, 345600000000000, 1, 100⟩
    ⟨.clockOut, 100, some 100⟩ (by decide) (by decide)

/-- A well-formed duration token starts with a digit, so it is never the
direction word `in`. -/
theorem durationToken_ne_in {t : String} (h : isDurationToken t = true) :
    t ≠ "in" := by
  rintro rfl
  exact absurd h (by decide)

/-- A well-formed duration token starts with a digit, so it is never the
direction word `ago`. -/
theorem durationToken_ne_ago {t : String} (h : isDurationToken t = true) :
    t ≠ "ago" := by
  rintro rfl
  exact absurd h (by decide)

/-- C6: for a non-empty sequence of well-formed positive-duration tokens
that parses to `d`, prefixing `in` parses to the same `d`, no direction
token defaults to forward (`d` is non-negative), and suffixing `ago`
parses to `-d`. -/
theorem biduration_direction_tokens (toks : List String) (d : Int)
    (hne : toks ≠ [])
    (hvalid : ∀ t ∈ toks, isDurationToken t = true)
    (hok : biduration_from_str toks = .ok d) :
    0 ≤ d
    ∧ biduration_from_str ("in" :: toks) = .ok d
    ∧ biduration_from_str (toks ++ ["ago"]) = .ok (-d) := by
  obtain ⟨t0, rest, rfl⟩ : ∃ t0 rest, toks = t0 :: rest := by
    cases toks with
    | nil => exact absurd rfl hne
    | cons a l => exact ⟨a, l, rfl⟩
  obtain ⟨tl, hl⟩ : ∃ tl, (t0 :: rest).getLast? = some tl := by
    cases hg : (t0 :: rest).getLast? with
    | none => exact absurd hg (by simp)
    | some a => exact ⟨a, rfl⟩
  have htl : tl ∈ t0 :: rest := List.mem_of_getLast?_eq_some hl
  have h0in : (t0 == "in") = false :=
    beq_eq_false_iff_ne.mpr (durationToken_ne_in (hvalid t0 (by simp)))
  have hlago : (tl == "ago") = false :=
    beq_eq_false_iff_ne.mpr (durationToken_ne_ago (hvalid tl htl))
  unfold biduration_from_str at hok
  rw [List.head?_cons, hl] at hok
  simp only [h0in, hlago] at hok
  cases hp : parse_duration (t0 :: rest) with
  | none => rw [hp] at hok; exact absurd hok (by simp)
  | some n =>
    rw [hp] at hok
    simp only [] at hok
    by_cases hgt : n > chronoMaxNanos
    · rw [if_pos hgt] at hok
      exact absurd hok (by simp)
    · rw [if_neg hgt] at hok
      have hd : (n : Int) = d := by
        simpa using hok
      refine ⟨by rw [← hd]; exact Int.natCast_nonneg n, ?_, ?_⟩
      · have hgl : ("in" :: t0 :: rest).getLast? = some tl := by
          rw [List.getLast?_cons_cons, hl]
        unfold biduration_from_str
        rw [List.head?_cons, hgl]
        simp only [beq_self_eq_true, hlago, List.drop_succ_cons,
          List.drop_zero, hp]
        rw [if_neg hgt, hd]
      · have hh : ((t0 :: rest) ++ ["ago"]).head? = some t0 := by simp
        have hg : ((t0 :: rest) ++ ["ago"]).getLast? = some "ago" :=
          List.getLast?_concat _
        have hdl : ((t0 :: rest) ++ ["ago"]).dropLast = t0 :: rest :=
          List.dropLast_concat
        unfold biduration_from_str
        rw [hh, hg]
        simp only [h0in, beq_self_eq_true, hdl, hp]
        rw [if_neg hgt, hd]

theorem biduration_direction_tokens_witness :
    (0 : Int) ≤ 18123000000000
    ∧ biduration_from_str ["in", "5h", "2m", "3s"] = .ok 18123000000000
    ∧ biduration_from_str ["5h", "2m", "3s", "ago"] = .ok (-18123000000000) :=
  biduration_direction_tokens ["5h", "2m", "3s"] 18123000000000
    (by decide) (by decide) (by decide)

end Punchcard
